import Mathlib

/-!
Verification development for the agent memory/transcript model of
`smolagents/memory.py`: the step variants (SystemPromptStep, TaskStep,
PlanningStep, ActionStep, FinalAnswerStep), their `dict` (toMapping) and
`to_messages` renderings, and the `AgentMemory` log.

Python values flowing through the serializers are embedded as the mutual
inductive `PyValue`; collaborator types that live outside `memory.py`
(ChatMessage, Timing, TokenUsage, AgentError, the JSON normalizer) are
modelled from the spec, each marked as such in its doc comment.
-/

/-- Role vocabulary of chat messages (smolagents `MessageRole`):
SYSTEM, USER, ASSISTANT, TOOL_CALL, TOOL_RESPONSE. -/
inductive MessageRole where
  | system
  | user
  | assistant
  | toolCall
  | toolResponse
  deriving DecidableEq, Repr

/-- Modelled from the spec: an image value is treated as an object
carrying a byte sequence, exposed by `tobytes`. -/
structure PILImage where
  data : List Nat
  deriving DecidableEq, Repr

def PILImage.tobytes (img : PILImage) : List Nat := img.data

/-- One content item of a chat message: a `type: text` or `type: image`
entry, as built throughout `memory.py`. -/
inductive ContentItem where
  | text (s : String)
  | image (img : PILImage)
  deriving DecidableEq, Repr

/-- Modelled from the spec: ChatMessage is an "opaque role+content value"
whose content is an ordered sequence of typed content items. -/
structure ChatMessage where
  role : MessageRole
  content : List ContentItem
  deriving DecidableEq, Repr

mutual
/-- Embedding of a run-time Python value as it flows through the
serializers: JSON primitives, byte strings, lists, string-keyed dicts,
plus the object kinds that can end up inside a mapping unserialized
(raw ChatMessage objects, raw image objects, other objects with a
string representation). -/
inductive PyValue where
  | pnone
  | pbool (b : Bool)
  | pint (n : Int)
  | pstr (s : String)
  | pbytes (bs : List Nat)
  | plist (xs : PyList)
  | pdict (kvs : PyKVs)
  | pmsg (m : ChatMessage)
  | pimage (img : PILImage)
  | pobj (s : String)
inductive PyList where
  | nil
  | cons (x : PyValue) (xs : PyList)
inductive PyKVs where
  | nil
  | cons (k : String) (v : PyValue) (kvs : PyKVs)
end

def PyList.ofList : List PyValue → PyList
  | [] => .nil
  | x :: xs => .cons x (PyList.ofList xs)

def PyKVs.ofList : List (String × PyValue) → PyKVs
  | [] => .nil
  | (k, v) :: kvs => .cons k v (PyKVs.ofList kvs)

/-- A Python list literal. -/
def PyValue.mkList (xs : List PyValue) : PyValue := .plist (PyList.ofList xs)

/-- A Python dict literal with string keys. -/
def PyValue.mkDict (kvs : List (String × PyValue)) : PyValue := .pdict (PyKVs.ofList kvs)

mutual
/-- Recursively JSON-primitive-safe: primitives, byte sequences (the
sanctioned image conversion of the spec), and lists/dicts thereof;
false as soon as a raw ChatMessage, image, or other object appears. -/
def jsonSafe : PyValue → Bool
  | .pnone => true
  | .pbool _ => true
  | .pint _ => true
  | .pstr _ => true
  | .pbytes _ => true
  | .plist xs => jsonSafeL xs
  | .pdict kvs => jsonSafeK kvs
  | .pmsg _ => false
  | .pimage _ => false
  | .pobj _ => false
def jsonSafeL : PyList → Bool
  | .nil => true
  | .cons x xs => jsonSafe x && jsonSafeL xs
def jsonSafeK : PyKVs → Bool
  | .nil => true
  | .cons _ v kvs => jsonSafe v && jsonSafeK kvs
end

def PyKVs.hasKeyK : PyKVs → String → Bool
  | .nil, _ => false
  | .cons k _ kvs, key => k == key || PyKVs.hasKeyK kvs key

/-- Whether a Python value is a dict carrying the given key. -/
def PyValue.hasKey : PyValue → String → Bool
  | .pdict kvs, key => kvs.hasKeyK key
  | _, _ => false

def PyKVs.dropK : PyKVs → String → PyKVs
  | .nil, _ => .nil
  | .cons k v kvs, key =>
      if k == key then PyKVs.dropK kvs key else .cons k v (PyKVs.dropK kvs key)

/-- The dict comprehension `{k: v for k, v in d.items() if k != key}`
of `get_succinct_steps`, as a value-level operation (identity on
non-dict values). -/
def PyValue.dropKey : PyValue → String → PyValue
  | .pdict kvs, key => .pdict (kvs.dropK key)
  | v, _ => v

/-- Modelled from the spec: the string representation `str(value)` used
by the normalizer as a last resort for values that are not natively
JSON-safe. -/
def pyFallbackStr : PyValue → String
  | .pmsg _ => "ChatMessage(...)"
  | .pimage _ => "Image(...)"
  | .pobj s => s
  | .pbytes _ => "bytes(...)"
  | _ => ""

mutual
/-- Modelled from the spec: `make_json_serializable` (smolagents.utils,
not under src/), the pure JSON-normalizer of section 6: recurses
through containers, keeps primitives, and falls back to a string
representation for opaque objects, never raising. -/
def make_json_serializable : PyValue → PyValue
  | .pnone => .pnone
  | .pbool b => .pbool b
  | .pint n => .pint n
  | .pstr s => .pstr s
  | .plist xs => .plist (makeJsonSerializableL xs)
  | .pdict kvs => .pdict (makeJsonSerializableK kvs)
  | v => .pstr (pyFallbackStr v)
def makeJsonSerializableL : PyList → PyList
  | .nil => .nil
  | .cons x xs => .cons (make_json_serializable x) (makeJsonSerializableL xs)
def makeJsonSerializableK : PyKVs → PyKVs
  | .nil => .nil
  | .cons k v kvs => .cons k (make_json_serializable v) (makeJsonSerializableK kvs)
end

mutual
/-- Python `str`/`repr` of a value, used for the textual dump
`str([tc.dict() for tc in self.tool_calls])` in `ActionStep.to_messages`
(string escaping is not modelled; no claim inspects this text). -/
def pyRepr : PyValue → String
  | .pnone => "None"
  | .pbool true => "True"
  | .pbool false => "False"
  | .pint n => toString n
  | .pstr s => "\x27" ++ s ++ "\x27"
  | .pbytes _ => "b\x27...\x27"
  | .plist xs => "[" ++ pyReprL xs ++ "]"
  | .pdict kvs => "\x7b" ++ pyReprK kvs ++ "\x7d"
  | .pmsg _ => "ChatMessage(...)"
  | .pimage _ => "Image(...)"
  | .pobj s => s
def pyReprL : PyList → String
  | .nil => ""
  | .cons x .nil => pyRepr x
  | .cons x (.cons y xs) => pyRepr x ++ ", " ++ pyReprL (.cons y xs)
def pyReprK : PyKVs → String
  | .nil => ""
  | .cons k v .nil => "\x27" ++ k ++ "\x27: " ++ pyRepr v
  | .cons k v (.cons k2 v2 kvs) =>
      "\x27" ++ k ++ "\x27: " ++ pyRepr v ++ ", " ++ pyReprK (.cons k2 v2 kvs)
end

/-- Modelled from the spec: Timing (smolagents.monitoring, not under
src/) records step duration as start and optional end instants; instants
are embedded as integers since no claim touches their arithmetic. -/
structure Timing where
  start_time : Int
  end_time : Option Int
  deriving DecidableEq, Repr

/-- Modelled from the spec: the mapping form of a Timing. -/
def Timing.dict (t : Timing) : PyValue :=
  PyValue.mkDict
    [("start_time", .pint t.start_time),
     ("end_time", match t.end_time with
       | some e => .pint e
       | none => .pnone)]

/-- Modelled from the spec: TokenUsage (smolagents.monitoring, not under
src/): non-negative token counts. -/
structure TokenUsage where
  input_tokens : Nat
  output_tokens : Nat
  total_tokens : Nat
  deriving DecidableEq, Repr

/-- Modelled from the spec: `asdict` of a TokenUsage dataclass. -/
def TokenUsage.asdict (tu : TokenUsage) : PyValue :=
  PyValue.mkDict
    [("input_tokens", .pint tu.input_tokens),
     ("output_tokens", .pint tu.output_tokens),
     ("total_tokens", .pint tu.total_tokens)]

/-- Modelled from the spec: AgentError (smolagents.utils, not under
src/) is an "opaque value with a string representation and a mapping
form \x7bmessage, type\x7d". -/
structure AgentError where
  message : String
  errType : String
  deriving DecidableEq, Repr

/-- Modelled from the spec: `str(error)` is the error's message text. -/
def AgentError.strOf (e : AgentError) : String := e.message

/-- Modelled from the spec: the mapping form of an AgentError. -/
def AgentError.dict (e : AgentError) : PyValue :=
  PyValue.mkDict [("type", .pstr e.errType), ("message", .pstr e.message)]

/-- `ToolCall` of memory.py: one requested tool invocation. -/
structure ToolCall where
  name : String
  arguments : PyValue
  id : String

/-- `ToolCall.dict` of memory.py: the fixed serialization envelope. -/
def ToolCall.dict (tc : ToolCall) : PyValue :=
  PyValue.mkDict
    [("id", .pstr tc.id),
     ("type", .pstr "function"),
     ("function", PyValue.mkDict
       [("name", .pstr tc.name),
        ("arguments", make_json_serializable tc.arguments)])]

def MessageRole.str : MessageRole → String
  | .system => "system"
  | .user => "user"
  | .assistant => "assistant"
  | .toolCall => "tool-call"
  | .toolResponse => "tool-response"

/-- A content item as the plain dict it is in the Python code: an image
item carries the raw image object. -/
def ContentItem.toPy : ContentItem → PyValue
  | .text s => PyValue.mkDict [("type", .pstr "text"), ("text", .pstr s)]
  | .image img => PyValue.mkDict [("type", .pstr "image"), ("image", .pimage img)]

/-- Modelled from the spec: the mapping form of a ChatMessage (its
`dict`, and what `asdict` recursion yields on the dataclass): role and
the content items as plain dicts, image payloads left raw. -/
def ChatMessage.dict (m : ChatMessage) : PyValue :=
  PyValue.mkDict
    [("role", .pstr m.role.str),
     ("content", PyValue.mkList (m.content.map ContentItem.toPy))]

/-- The fixed retry-guidance sentence appended to the error text in
`ActionStep.to_messages`. -/
def retryGuidance : String :=
  "\nNow let\x27s retry: take care not to repeat previous errors! If you have retried several times, try a completely different approach.\n"

/-- `ActionStep` of memory.py: one reasoning/acting iteration. In the
source every field after `timing` defaults to None (`action_output` to
None, `is_final_answer` to False). -/
structure ActionStep where
  step_number : Int
  timing : Timing
  model_input_messages : Option (List ChatMessage)
  tool_calls : Option (List ToolCall)
  error : Option AgentError
  model_output_message : Option ChatMessage
  model_output : Option String
  observations : Option String
  observations_images : Option (List PILImage)
  action_output : PyValue
  token_usage : Option TokenUsage
  is_final_answer : Bool

/-- An `ActionStep` built with only `step_number` and `timing` supplied,
every other field left at its dataclass default. -/
def ActionStep.mkMinimal (n : Int) (t : Timing) : ActionStep :=
  ⟨n, t, none, none, none, none, none, none, none, .pnone, none, false⟩

/-- `ActionStep.dict` of memory.py, lines 61-78: the handwritten mapping.
`model_input_messages` is passed through raw; `tool_calls` and
`observations_images` are gated by Python truthiness (None and the
empty list alike yield the default branch). -/
def ActionStep.dict (s : ActionStep) : PyValue :=
  PyValue.mkDict
    [("step_number", .pint s.step_number),
     ("timing", s.timing.dict),
     ("model_input_messages", match s.model_input_messages with
       | some ms => PyValue.mkList (ms.map PyValue.pmsg)
       | none => .pnone),
     ("tool_calls", match s.tool_calls with
       | some (tc :: tcs) => PyValue.mkList ((tc :: tcs).map ToolCall.dict)
       | _ => PyValue.mkList []),
     ("error", match s.error with
       | some e => e.dict
       | none => .pnone),
     ("model_output_message", match s.model_output_message with
       | some m => m.dict
       | none => .pnone),
     ("model_output", match s.model_output with
       | some mo => .pstr mo
       | none => .pnone),
     ("observations", match s.observations with
       | some o => .pstr o
       | none => .pnone),
     ("observations_images", match s.observations_images with
       | some (img :: imgs) =>
           PyValue.mkList ((img :: imgs).map fun i => .pbytes i.tobytes)
       | _ => .pnone),
     ("action_output", make_json_serializable s.action_output),
     ("token_usage", match s.token_usage with
       | some tu => tu.asdict
       | none => .pnone),
     ("is_final_answer", .pbool s.is_final_answer)]

/-- `ActionStep.to_messages` of memory.py, lines 80-138: up to five
messages in fixed order, each conditionally emitted. -/
def ActionStep.to_messages (s : ActionStep) (summary_mode : Bool) : List ChatMessage :=
  (match s.model_output with
    | some mo => if summary_mode then [] else [⟨.assistant, [.text mo.trim]⟩]
    | none => []) ++
  (match s.tool_calls with
    | some tcs =>
        [⟨.toolCall,
          [.text ("Calling tools:\n" ++ pyRepr (PyValue.mkList (tcs.map ToolCall.dict)))]⟩]
    | none => []) ++
  (match s.observations_images with
    | some (img :: imgs) => [⟨.user, (img :: imgs).map ContentItem.image⟩]
    | _ => []) ++
  (match s.observations with
    | some o => [⟨.toolResponse, [.text ("Observation:\n" ++ o)]⟩]
    | none => []) ++
  (match s.error with
    | some e =>
        [⟨.toolResponse,
          [.text ((match s.tool_calls with
            | some (tc :: _) => "Call id: " ++ tc.id ++ "\n"
            | _ => "") ++ "Error:\n" ++ e.strOf ++ retryGuidance)]⟩]
    | none => [])

/-- `PlanningStep` of memory.py. -/
structure PlanningStep where
  model_input_messages : List ChatMessage
  model_output_message : ChatMessage
  plan : String
  timing : Timing
  token_usage : Option TokenUsage

/-- `PlanningStep.dict` is the inherited `asdict(self)`: dataclass
recursion turns the ChatMessages and Timing into their mapping forms. -/
def PlanningStep.dict (s : PlanningStep) : PyValue :=
  PyValue.mkDict
    [("model_input_messages", PyValue.mkList (s.model_input_messages.map ChatMessage.dict)),
     ("model_output_message", s.model_output_message.dict),
     ("plan", .pstr s.plan),
     ("timing", s.timing.dict),
     ("token_usage", match s.token_usage with
       | some tu => tu.asdict
       | none => .pnone)]

/-- `PlanningStep.to_messages` of memory.py, lines 149-158. -/
def PlanningStep.to_messages (s : PlanningStep) (summary_mode : Bool) : List ChatMessage :=
  if summary_mode then []
  else
    [⟨.assistant, [.text s.plan.trim]⟩,
     ⟨.user, [.text "Now proceed and carry out this plan."]⟩]

/-- `TaskStep` of memory.py. -/
structure TaskStep where
  task : String
  task_images : Option (List PILImage)

/-- `TaskStep.dict` is the inherited `asdict(self)`: the raw image
objects survive inside the mapping. -/
def TaskStep.dict (s : TaskStep) : PyValue :=
  PyValue.mkDict
    [("task", .pstr s.task),
     ("task_images", match s.task_images with
       | some imgs => PyValue.mkList (imgs.map PyValue.pimage)
       | none => .pnone)]

/-- `TaskStep.to_messages` of memory.py, lines 166-171: `summary_mode`
is ignored; images are appended under Python truthiness. -/
def TaskStep.to_messages (s : TaskStep) (summary_mode : Bool) : List ChatMessage :=
  [⟨.user,
    .text ("New task:\n" ++ s.task) ::
      (match s.task_images with
        | some (img :: imgs) => (img :: imgs).map ContentItem.image
        | _ => [])⟩]

/-- `SystemPromptStep` of memory.py. -/
structure SystemPromptStep where
  system_prompt : String
  deriving DecidableEq, Repr

/-- `SystemPromptStep.dict` is the inherited `asdict(self)`. -/
def SystemPromptStep.dict (s : SystemPromptStep) : PyValue :=
  PyValue.mkDict [("system_prompt", .pstr s.system_prompt)]

/-- `SystemPromptStep.to_messages` of memory.py, lines 178-181. -/
def SystemPromptStep.to_messages (s : SystemPromptStep) (summary_mode : Bool) :
    List ChatMessage :=
  if summary_mode then []
  else [⟨.system, [.text s.system_prompt]⟩]

/-- `FinalAnswerStep` of memory.py: only the `output` field; it overrides
neither `dict` nor `to_messages`. -/
structure FinalAnswerStep where
  output : PyValue

/-- `FinalAnswerStep.dict` is the inherited `asdict(self)`: the output
value is carried as is, with no normalizer applied. -/
def FinalAnswerStep.dict (s : FinalAnswerStep) : PyValue :=
  PyValue.mkDict [("output", s.output)]

/-- A Python exception that a modelled method can signal. -/
inductive PyErr where
  | notImplementedError
  deriving DecidableEq, Repr

/-- The closed family of memory step variants. -/
inductive MemStep where
  | systemPrompt (s : SystemPromptStep)
  | task (s : TaskStep)
  | planning (s : PlanningStep)
  | action (s : ActionStep)
  | finalAnswer (s : FinalAnswerStep)

/-- Dynamic dispatch of `dict` over the step variants. -/
def MemStep.dict : MemStep → PyValue
  | .systemPrompt s => s.dict
  | .task s => s.dict
  | .planning s => s.dict
  | .action s => s.dict
  | .finalAnswer s => s.dict

/-- Dynamic dispatch of `to_messages` over the step variants.
`FinalAnswerStep` does not override the method, so it inherits
`MemoryStep.to_messages`, which raises NotImplementedError
(memory.py lines 42-43). -/
def MemStep.to_messages : MemStep → Bool → Except PyErr (List ChatMessage)
  | .systemPrompt s, sm => .ok (s.to_messages sm)
  | .task s, sm => .ok (s.to_messages sm)
  | .planning s, sm => .ok (s.to_messages sm)
  | .action s, sm => .ok (s.to_messages sm)
  | .finalAnswer _, _ => .error .notImplementedError

/-- `AgentMemory` of memory.py: the system prompt step plus the ordered
step log. -/
structure AgentMemory where
  system_prompt : SystemPromptStep
  steps : List MemStep

/-- `AgentMemory.__init__`: wraps the prompt and starts with no steps. -/
def AgentMemory.mkInit (prompt : String) : AgentMemory :=
  ⟨⟨prompt⟩, []⟩

/-- `AgentMemory.reset`: `self.steps = []`. -/
def AgentMemory.reset (m : AgentMemory) : AgentMemory :=
  ⟨m.system_prompt, []⟩

/-- `AgentMemory.get_succinct_steps`: each step's mapping with the
`model_input_messages` key removed. -/
def AgentMemory.get_succinct_steps (m : AgentMemory) : List PyValue :=
  m.steps.map fun s => s.dict.dropKey "model_input_messages"

/-- `AgentMemory.get_full_steps`: each step's mapping unmodified. -/
def AgentMemory.get_full_steps (m : AgentMemory) : List PyValue :=
  m.steps.map MemStep.dict

/-- Modelled from the spec: the external agent loop (smolagents.agents,
not under src/) appending one step to the log as execution progresses. -/
def AgentMemory.appendStep (m : AgentMemory) (s : MemStep) : AgentMemory :=
  ⟨m.system_prompt, m.steps ++ [s]⟩

/-- The `step_number` values of the ActionStep entries of a step list,
in sequence order. -/
def actionStepNumbers (steps : List MemStep) : List Int :=
  steps.filterMap fun s =>
    match s with
    | .action a => some a.step_number
    | _ => none

/-- Modelled from the spec: the states of an `AgentMemory` reachable
through its operations. Construction starts empty; `reset` clears the
log; the external driver appends steps in execution order, meaning a new
ActionStep carries a `step_number` at least as large as that of every
ActionStep already logged (spec section 3 invariant); the getters and
`replay` do not mutate. -/
inductive Reachable : AgentMemory → Prop where
  | init (prompt : String) : Reachable (AgentMemory.mkInit prompt)
  | reset (m : AgentMemory) : Reachable m → Reachable m.reset
  | append (m : AgentMemory) (s : MemStep) : Reachable m →
      (∀ a : ActionStep, s = .action a →
        ∀ b : ActionStep, MemStep.action b ∈ m.steps → b.step_number ≤ a.step_number) →
      Reachable (m.appendStep s)

/-- Image-free side condition under which a step's mapping is
recursively JSON-safe: no raw image payloads anywhere, no raw
ChatMessages passed through (`ActionStep.model_input_messages` unset),
and a FinalAnswerStep's output already JSON-safe. -/
def ContentItem.noImage : ContentItem → Bool
  | .text _ => true
  | .image _ => false

def ChatMessage.noImage (m : ChatMessage) : Bool :=
  m.content.all ContentItem.noImage

def MemStep.dictSafeInputs : MemStep → Bool
  | .systemPrompt _ => true
  | .task t => (t.task_images.getD []).isEmpty
  | .planning p =>
      p.model_input_messages.all ChatMessage.noImage && p.model_output_message.noImage
  | .action a =>
      a.model_input_messages.isNone &&
        (match a.model_output_message with
          | some m => m.noImage
          | none => true)
  | .finalAnswer f => jsonSafe f.output

mutual
theorem jsonSafe_mjs : ∀ v : PyValue, jsonSafe (make_json_serializable v) = true
  | .pnone => rfl
  | .pbool _ => rfl
  | .pint _ => rfl
  | .pstr _ => rfl
  | .pbytes _ => rfl
  | .plist xs => jsonSafeL_mjsL xs
  | .pdict kvs => jsonSafeK_mjsK kvs
  | .pmsg _ => rfl
  | .pimage _ => rfl
  | .pobj _ => rfl
theorem jsonSafeL_mjsL : ∀ xs : PyList, jsonSafeL (makeJsonSerializableL xs) = true
  | .nil => rfl
  | .cons x xs => by
      show (jsonSafe (make_json_serializable x) && jsonSafeL (makeJsonSerializableL xs)) = true
      rw [jsonSafe_mjs x, jsonSafeL_mjsL xs, Bool.and_self]
theorem jsonSafeK_mjsK : ∀ kvs : PyKVs, jsonSafeK (makeJsonSerializableK kvs) = true
  | .nil => rfl
  | .cons _ v kvs => by
      show (jsonSafe (make_json_serializable v) && jsonSafeK (makeJsonSerializableK kvs)) = true
      rw [jsonSafe_mjs v, jsonSafeK_mjsK kvs, Bool.and_self]
end

theorem jsonSafeL_ofList : ∀ xs : List PyValue,
    jsonSafeL (PyList.ofList xs) = xs.all jsonSafe
  | [] => rfl
  | x :: xs => by
      show (jsonSafe x && jsonSafeL (PyList.ofList xs)) = (jsonSafe x && xs.all jsonSafe)
      rw [jsonSafeL_ofList xs]

theorem jsonSafeK_ofList : ∀ kvs : List (String × PyValue),
    jsonSafeK (PyKVs.ofList kvs) = kvs.all fun kv => jsonSafe kv.2
  | [] => rfl
  | (k, v) :: kvs => by
      show (jsonSafe v && jsonSafeK (PyKVs.ofList kvs)) = (jsonSafe v && kvs.all fun kv => jsonSafe kv.2)
      rw [jsonSafeK_ofList kvs]

theorem jsonSafe_mkDict (kvs : List (String × PyValue)) :
    jsonSafe (PyValue.mkDict kvs) = kvs.all fun kv => jsonSafe kv.2 :=
  jsonSafeK_ofList kvs

theorem jsonSafe_mkList (xs : List PyValue) :
    jsonSafe (PyValue.mkList xs) = xs.all jsonSafe :=
  jsonSafeL_ofList xs

theorem jsonSafe_contentItem (c : ContentItem) : jsonSafe c.toPy = c.noImage := by
  cases c <;> rfl

theorem jsonSafe_contentList : ∀ l : List ContentItem,
    jsonSafe (PyValue.mkList (l.map ContentItem.toPy)) = l.all ContentItem.noImage
  | [] => rfl
  | c :: l => by
      show (jsonSafe c.toPy && jsonSafeL (PyList.ofList (l.map ContentItem.toPy)))
          = (c.noImage && l.all ContentItem.noImage)
      rw [jsonSafe_contentItem c]
      have h := jsonSafe_contentList l
      rw [show jsonSafe (PyValue.mkList (l.map ContentItem.toPy))
            = jsonSafeL (PyList.ofList (l.map ContentItem.toPy)) from rfl] at h
      rw [h]

theorem jsonSafe_msgDict (m : ChatMessage) : jsonSafe m.dict = m.noImage := by
  show (jsonSafe (.pstr m.role.str) &&
      (jsonSafe (PyValue.mkList (m.content.map ContentItem.toPy)) && true)) = m.noImage
  rw [jsonSafe_contentList m.content]
  show (true && (m.content.all ContentItem.noImage && true)) = m.noImage
  rw [Bool.true_and, Bool.and_true]
  rfl

theorem jsonSafe_msgList : ∀ ms : List ChatMessage,
    jsonSafe (PyValue.mkList (ms.map ChatMessage.dict)) = ms.all ChatMessage.noImage
  | [] => rfl
  | m :: ms => by
      show (jsonSafe m.dict && jsonSafeL (PyList.ofList (ms.map ChatMessage.dict)))
          = (m.noImage && ms.all ChatMessage.noImage)
      rw [jsonSafe_msgDict m]
      have h := jsonSafe_msgList ms
      rw [show jsonSafe (PyValue.mkList (ms.map ChatMessage.dict))
            = jsonSafeL (PyList.ofList (ms.map ChatMessage.dict)) from rfl] at h
      rw [h]

theorem jsonSafe_timing (t : Timing) : jsonSafe t.dict = true := by
  obtain ⟨st, et⟩ := t
  cases et <;> rfl

theorem jsonSafe_tokenUsage (tu : TokenUsage) : jsonSafe tu.asdict = true := rfl

theorem jsonSafe_agentError (e : AgentError) : jsonSafe e.dict = true := rfl

theorem jsonSafe_toolCall (tc : ToolCall) : jsonSafe tc.dict = true := by
  show (jsonSafe (.pstr tc.id) && (jsonSafe (.pstr "function") &&
      ((jsonSafe (.pstr tc.name) && (jsonSafe (make_json_serializable tc.arguments) && true))
        && true))) = true
  rw [jsonSafe_mjs tc.arguments]
  rfl

theorem jsonSafe_toolCallList : ∀ tcs : List ToolCall,
    jsonSafe (PyValue.mkList (tcs.map ToolCall.dict)) = true
  | [] => rfl
  | tc :: tcs => by
      show (jsonSafe tc.dict && jsonSafeL (PyList.ofList (tcs.map ToolCall.dict))) = true
      rw [jsonSafe_toolCall tc]
      have h := jsonSafe_toolCallList tcs
      rw [show jsonSafe (PyValue.mkList (tcs.map ToolCall.dict))
            = jsonSafeL (PyList.ofList (tcs.map ToolCall.dict)) from rfl] at h
      rw [h, Bool.and_self]

theorem jsonSafe_imageBytes : ∀ imgs : List PILImage,
    jsonSafe (PyValue.mkList (imgs.map fun i => PyValue.pbytes i.tobytes)) = true
  | [] => rfl
  | img :: imgs => by
      show (jsonSafe (.pbytes img.tobytes) &&
          jsonSafeL (PyList.ofList (imgs.map fun i => PyValue.pbytes i.tobytes))) = true
      have h := jsonSafe_imageBytes imgs
      rw [show jsonSafe (PyValue.mkList (imgs.map fun i => PyValue.pbytes i.tobytes))
            = jsonSafeL (PyList.ofList (imgs.map fun i => PyValue.pbytes i.tobytes)) from rfl] at h
      rw [h]
      rfl

theorem hasKeyK_dropK : ∀ (kvs : PyKVs) (key : String),
    (kvs.dropK key).hasKeyK key = false
  | .nil, _ => rfl
  | .cons k v kvs, key => by
      show (if k == key then PyKVs.dropK kvs key
        else PyKVs.cons k v (PyKVs.dropK kvs key)).hasKeyK key = false
      by_cases h : k == key
      · rw [if_pos h]
        exact hasKeyK_dropK kvs key
      · rw [if_neg h]
        show (k == key || (PyKVs.dropK kvs key).hasKeyK key) = false
        rw [hasKeyK_dropK kvs key]
        simpa using h

theorem hasKey_dropKey (v : PyValue) (key : String) :
    (v.dropKey key).hasKey key = false := by
  cases v <;> first
    | rfl
    | exact hasKeyK_dropK _ _

/-- The concrete `ActionStep` whose mapping carries raw ChatMessage
objects: `model_input_messages` is set, and `ActionStep.dict` (memory.py
line 66) passes it through unserialized. -/
def c1RawStep : MemStep :=
  .action ⟨1, ⟨0, some 1⟩, some [⟨.user, [.text "hi"]⟩],
    none, none, none, none, none, none, .pnone, none, false⟩

/-- C1 counterexample: the claim "every step's mapping contains only
JSON-primitive-safe values, recursively" is false: an ActionStep whose
`model_input_messages` is set yields a mapping containing the raw
ChatMessage objects. -/
theorem c1_raw_chatMessage_in_mapping : jsonSafe (MemStep.dict c1RawStep) = false := rfl

/-- C1 (amended): for every step variant, the mapping returned by
`dict()` is recursively JSON-primitive-safe, provided the instance
carries no raw image payload, an ActionStep's `model_input_messages` is
unset, and a FinalAnswerStep's output is already JSON-safe; an
ActionStep with `model_input_messages` set passes the raw ChatMessage
objects through to the mapping unserialized. -/
theorem c1_dict_jsonSafe_of_safeInputs (s : MemStep) (h : s.dictSafeInputs = true) :
    jsonSafe s.dict = true := by
  cases s with
  | systemPrompt p => rfl
  | task t =>
      obtain ⟨task, imgs⟩ := t
      match imgs with
      | none => rfl
      | some [] => rfl
      | some (i :: l) =>
          simp only [MemStep.dictSafeInputs, Option.getD_some, List.isEmpty_cons] at h
          exact (Bool.false_ne_true h).elim
  | planning p =>
      obtain ⟨mim, mom, plan, timing, tu⟩ := p
      simp only [MemStep.dictSafeInputs, Bool.and_eq_true] at h
      obtain ⟨h1, h2⟩ := h
      show jsonSafe (PlanningStep.dict ⟨mim, mom, plan, timing, tu⟩) = true
      simp only [PlanningStep.dict, jsonSafe_mkDict, List.all_cons, List.all_nil,
        Bool.and_eq_true, Bool.and_true]
      refine ⟨?_, ?_, ?_, ?_, ?_⟩
      · rw [jsonSafe_msgList, h1]
      · rw [jsonSafe_msgDict]
        exact h2
      · rfl
      · exact jsonSafe_timing timing
      · cases tu with
        | none => rfl
        | some tu => exact jsonSafe_tokenUsage tu
  | action a =>
      obtain ⟨n, t, mim, tcs, err, mom, mo, obs, oimgs, ao, tu, fin⟩ := a
      simp only [MemStep.dictSafeInputs, Bool.and_eq_true, Option.isNone_iff_eq_none] at h
      obtain ⟨h1, h2⟩ := h
      subst h1
      show jsonSafe (ActionStep.dict ⟨n, t, none, tcs, err, mom, mo, obs, oimgs, ao, tu, fin⟩)
          = true
      simp only [ActionStep.dict, jsonSafe_mkDict, List.all_cons, List.all_nil,
        Bool.and_eq_true, Bool.and_true]
      refine ⟨?_, ?_, ?_, ?_, ?_, ?_, ?_, ?_, ?_, ?_, ?_, ?_⟩
      · rfl
      · exact jsonSafe_timing t
      · rfl
      · match tcs with
        | none => rfl
        | some [] => rfl
        | some (tc :: rest) => exact jsonSafe_toolCallList (tc :: rest)
      · cases err with
        | none => rfl
        | some e => exact jsonSafe_agentError e
      · cases mom with
        | none => rfl
        | some m =>
            rw [jsonSafe_msgDict]
            exact h2
      · cases mo <;> rfl
      · cases obs <;> rfl
      · match oimgs with
        | none => rfl
        | some [] => rfl
        | some (img :: rest) => exact jsonSafe_imageBytes (img :: rest)
      · exact jsonSafe_mjs ao
      · cases tu with
        | none => rfl
        | some tu => exact jsonSafe_tokenUsage tu
      · rfl
  | finalAnswer f =>
      show jsonSafe (FinalAnswerStep.dict f) = true
      simp only [FinalAnswerStep.dict, jsonSafe_mkDict, List.all_cons, List.all_nil,
        Bool.and_true]
      exact h

/-- C1 witness: a minimal ActionStep satisfies the side condition and
its mapping is recursively JSON-safe. -/
theorem c1_witness :
    MemStep.dictSafeInputs (.action (ActionStep.mkMinimal 1 ⟨0, none⟩)) = true ∧
      jsonSafe (MemStep.dict (.action (ActionStep.mkMinimal 1 ⟨0, none⟩))) = true :=
  ⟨rfl, c1_dict_jsonSafe_of_safeInputs (.action (ActionStep.mkMinimal 1 ⟨0, none⟩)) rfl⟩

/-- C2 counterexample: calling `to_messages` on a concrete
FinalAnswerStep does not return the empty message sequence — it raises
(the variant inherits the base `MemoryStep.to_messages`). -/
theorem c2_final_answer_not_empty_messages :
    ¬ (MemStep.to_messages (.finalAnswer ⟨.pstr "done"⟩) false
        = Except.ok ([] : List ChatMessage)) := nofun

/-- C2 (amended): for every FinalAnswerStep and every summaryMode,
`to_messages` raises NotImplementedError — `FinalAnswerStep` does not
override the base method, so it never produces messages. -/
theorem c2_final_answer_to_messages_raises (f : FinalAnswerStep) (sm : Bool) :
    MemStep.to_messages (.finalAnswer f) sm = Except.error PyErr.notImplementedError := rfl

/-- C3: an ActionStep built with only `step_number` and `timing`
supplied (all optional fields at their defaults) serializes without
raising, to this mapping. -/
theorem c3_minimal_actionstep_dict (n : Int) (t : Timing) :
    (ActionStep.mkMinimal n t).dict =
      PyValue.mkDict
        [("step_number", .pint n),
         ("timing", t.dict),
         ("model_input_messages", .pnone),
         ("tool_calls", PyValue.mkList []),
         ("error", .pnone),
         ("model_output_message", .pnone),
         ("model_output", .pnone),
         ("observations", .pnone),
         ("observations_images", .pnone),
         ("action_output", .pnone),
         ("token_usage", .pnone),
         ("is_final_answer", .pbool false)] := rfl

/-- C6: a PlanningStep renders to no messages in summary mode, and
otherwise to exactly the ASSISTANT message with the trimmed plan text
followed by the fixed USER instruction. -/
theorem c6_planning_to_messages (p : PlanningStep) :
    p.to_messages true = [] ∧
      p.to_messages false =
        [⟨.assistant, [.text p.plan.trim]⟩,
         ⟨.user, [.text "Now proceed and carry out this plan."]⟩] :=
  ⟨rfl, rfl⟩

/-- C8: `reset` leaves the step sequence empty and the system prompt
unchanged. -/
theorem c8_reset_clears_steps_keeps_prompt (m : AgentMemory) :
    m.reset.steps = ([] : List MemStep) ∧ m.reset.system_prompt = m.system_prompt :=
  ⟨rfl, rfl⟩

/-- C10: a TaskStep renders identically in and out of summary mode: one
USER message whose content is the "New task:" text followed by the task
images as additional content items. -/
theorem c10_taskstep_ignores_summary_mode (t : TaskStep) (sm : Bool) :
    t.to_messages sm = t.to_messages false ∧
      t.to_messages sm =
        [⟨.user, .text ("New task:\n" ++ t.task)
            :: (t.task_images.getD []).map ContentItem.image⟩] := by
  obtain ⟨task, imgs⟩ := t
  refine ⟨rfl, ?_⟩
  match imgs with
  | none => rfl
  | some [] => rfl
  | some (i :: l) => rfl

/-- C4: an ActionStep whose `tool_calls` is `[ToolCall("search",
\x7b"q": "x"\x7d, "t1")]` and whose error is set renders a TOOL_RESPONSE
message whose text is exactly "Call id: t1\n" followed by "Error:\n",
the stringified error, and the fixed retry-guidance sentence. -/
theorem c4_error_tool_response (a : ActionStep) (e : AgentError) (sm : Bool)
    (h1 : a.tool_calls = some [⟨"search", PyValue.mkDict [("q", .pstr "x")], "t1"⟩])
    (h2 : a.error = some e) :
    (⟨.toolResponse,
      [.text ("Call id: t1\n" ++ "Error:\n" ++ e.strOf ++ retryGuidance)]⟩ : ChatMessage)
      ∈ a.to_messages sm := by
  unfold ActionStep.to_messages
  rw [h1, h2]
  refine List.mem_append_right _ ?_
  refine List.mem_singleton.mpr ?_
  rfl

def c4Step : ActionStep :=
  ⟨1, ⟨0, none⟩, none,
    some [⟨"search", PyValue.mkDict [("q", .pstr "x")], "t1"⟩],
    some ⟨"boom", "AgentExecutionError"⟩, none, none, none, none, .pnone, none, false⟩

/-- C4 witness: the theorem applied at a concrete ActionStep. -/
theorem c4_witness :
    c4Step.tool_calls = some [⟨"search", PyValue.mkDict [("q", .pstr "x")], "t1"⟩] ∧
      c4Step.error = some ⟨"boom", "AgentExecutionError"⟩ ∧
      (⟨.toolResponse,
        [.text ("Call id: t1\n" ++ "Error:\n" ++
          (AgentError.mk "boom" "AgentExecutionError").strOf ++ retryGuidance)]⟩ : ChatMessage)
        ∈ c4Step.to_messages false :=
  ⟨rfl, rfl, c4_error_tool_response c4Step ⟨"boom", "AgentExecutionError"⟩ false rfl rfl⟩

/-- C5: `to_messages` contains a TOOL_CALL-role message exactly when the
`tool_calls` field is set — including when it is the empty list — and
never when it is None. -/
theorem c5_tool_call_message_iff_field_set (a : ActionStep) (sm : Bool) :
    (a.to_messages sm).any (fun m => m.role == MessageRole.toolCall) = a.tool_calls.isSome := by
  obtain ⟨n, t, mim, tcs, err, mom, mo, obs, oimgs, ao, tu, fin⟩ := a
  unfold ActionStep.to_messages
  cases mo <;> cases tcs <;> cases err <;> cases obs <;>
    rcases oimgs with _ | ⟨_ | ⟨i, l⟩⟩ <;> cases sm <;>
      simp [List.any_append]

/-- C7: no mapping produced by `get_succinct_steps` carries the key
`model_input_messages`, while any step whose own mapping carries it has
that very mapping, key included, among the `get_full_steps` output. -/
theorem c7_succinct_full_model_input_messages (m : AgentMemory) :
    (∀ d ∈ m.get_succinct_steps, d.hasKey "model_input_messages" = false) ∧
      (∀ s ∈ m.steps, s.dict.hasKey "model_input_messages" = true →
        s.dict ∈ m.get_full_steps ∧ s.dict.hasKey "model_input_messages" = true) := by
  constructor
  · intro d hd
    simp only [AgentMemory.get_succinct_steps, List.mem_map] at hd
    obtain ⟨s, _, rfl⟩ := hd
    exact hasKey_dropKey s.dict "model_input_messages"
  · intro s hs h
    exact ⟨List.mem_map_of_mem MemStep.dict hs, h⟩

def c7Step : MemStep :=
  .action ⟨2, ⟨0, some 3⟩, some [⟨.assistant, [.text "out"]⟩],
    none, none, none, none, none, none, .pnone, none, false⟩

def c7Mem : AgentMemory := ⟨⟨"prompt"⟩, [c7Step]⟩

/-- C7 witness: the theorem applied at a concrete memory holding one
ActionStep with `model_input_messages` set. -/
theorem c7_witness :
    (c7Step.dict.dropKey "model_input_messages").hasKey "model_input_messages" = false :=
  (c7_succinct_full_model_input_messages c7Mem).1
    (c7Step.dict.dropKey "model_input_messages") (List.mem_singleton.mpr rfl)

/-- C9: in every state of an `AgentMemory` reachable through its
operations with steps appended in execution order, the `step_number`
values of the ActionStep entries are non-decreasing in sequence order. -/
theorem c9_action_step_numbers_monotone (m : AgentMemory) (h : Reachable m) :
    List.Pairwise (· ≤ ·) (actionStepNumbers m.steps) := by
  induction h with
  | init prompt => exact List.Pairwise.nil
  | reset m _ _ => exact List.Pairwise.nil
  | append m s _ hord ih =>
      show List.Pairwise (· ≤ ·) (actionStepNumbers (m.steps ++ [s]))
      unfold actionStepNumbers at ih ⊢
      rw [List.filterMap_append]
      cases s with
      | action a =>
          rw [List.pairwise_append]
          refine ⟨ih, List.pairwise_singleton _ _, ?_⟩
          intro x hx y hy
          simp only [List.filterMap_cons, List.filterMap_nil, List.mem_singleton] at hy
          subst hy
          simp only [List.mem_filterMap] at hx
          obtain ⟨s', hs', hmatch⟩ := hx
          cases s' with
          | action b =>
              simp only [Option.some.injEq] at hmatch
              subst hmatch
              exact hord a rfl b hs'
          | systemPrompt _ => simp at hmatch
          | task _ => simp at hmatch
          | planning _ => simp at hmatch
          | finalAnswer _ => simp at hmatch
      | systemPrompt p => simpa using ih
      | task t => simpa using ih
      | planning p => simpa using ih
      | finalAnswer f => simpa using ih

def c9A1 : ActionStep := ActionStep.mkMinimal 1 ⟨0, some 1⟩

def c9A2 : ActionStep := ActionStep.mkMinimal 2 ⟨1, some 2⟩

def c9Mem : AgentMemory :=
  ((AgentMemory.mkInit "prompt").appendStep (.action c9A1)).appendStep (.action c9A2)

/-- C9 witness: a memory built by construction and two in-order appends
is reachable, and the theorem yields monotonicity of its ActionStep
numbers. -/
theorem c9_witness :
    Reachable c9Mem ∧ List.Pairwise (· ≤ ·) (actionStepNumbers c9Mem.steps) := by
  have h1 : Reachable ((AgentMemory.mkInit "prompt").appendStep (.action c9A1)) := by
    refine Reachable.append _ _ (Reachable.init "prompt") ?_
    intro a _ b hb
    exact absurd hb (List.not_mem_nil _)
  have h2 : Reachable c9Mem := by
    refine Reachable.append _ _ h1 ?_
    intro a ha b hb
    simp only [AgentMemory.mkInit, AgentMemory.appendStep, List.nil_append,
      List.mem_singleton, MemStep.action.injEq] at hb
    simp only [MemStep.action.injEq] at ha
    subst ha
    subst hb
    decide
  exact ⟨h2, c9_action_step_numbers_monotone c9Mem h2⟩
